import Mathlib

/-!
# Verification of the lexepub EPUB lexical extractor

This file embeds the foreign-call boundary declared in
`include/EpubExtractor.h` and `include/EpubInfo.d.h`, models the extraction
pipeline described by the design document (the implementation behind the
boundary is not part of the given sources), and proves the stated
properties of the system: word and character counting, spine-order
concatenation, per-item skipping, fatal-error propagation, and the shape
of the boundary types.
-/

namespace Lexepub

/-! ## Embedding of the C boundary declarations -/

/-- C types appearing in the boundary headers. -/
inductive CType where
  | void
  | size_t
  | bool_t
  | ptrTo (n : String)
  | constPtrTo (n : String)
  | charConstPtr
  deriving DecidableEq

/-- A formal parameter of a C function declaration. -/
structure CParam where
  pname : String
  ptype : CType
  deriving DecidableEq

/-- A C function declaration: name, parameter list, return type. -/
structure CDecl where
  dname : String
  params : List CParam
  ret : CType
  deriving DecidableEq

/-- `EpubExtractor* EpubExtractor_create(void);` from EpubExtractor.h. -/
def EpubExtractor_create_decl : CDecl :=
  ⟨"EpubExtractor_create", [], CType.ptrTo "EpubExtractor"⟩

/-- `size_t EpubExtractor_get_total_word_count(const EpubExtractor* self);` -/
def EpubExtractor_get_total_word_count_decl : CDecl :=
  ⟨"EpubExtractor_get_total_word_count", [⟨"self", CType.constPtrTo "EpubExtractor"⟩], CType.size_t⟩

/-- `size_t EpubExtractor_get_total_char_count(const EpubExtractor* self);` -/
def EpubExtractor_get_total_char_count_decl : CDecl :=
  ⟨"EpubExtractor_get_total_char_count", [⟨"self", CType.constPtrTo "EpubExtractor"⟩], CType.size_t⟩

/-- `void EpubExtractor_destroy(EpubExtractor* self);` -/
def EpubExtractor_destroy_decl : CDecl :=
  ⟨"EpubExtractor_destroy", [⟨"self", CType.ptrTo "EpubExtractor"⟩], CType.void⟩

/-- Types a C struct field can have in the boundary headers.
`stringView` is `DiplomatStringView`, a plain pointer-and-length pair;
`optionWrapped t` stands for an explicit optional wrapper around `t`
(a tagged present/absent variant), which is what the design document
asks for on individual metadata fields. -/
inductive CFieldType where
  | stringView
  | boolField
  | structField (n : String)
  | optionWrapped (t : CFieldType)
  deriving DecidableEq

/-- Whether a field type is an explicit optional wrapper. -/
def isOptionWrapped : CFieldType → Bool
  | CFieldType.optionWrapped _ => true
  | _ => false

/-- Fields of `struct EpubInfo` as declared in EpubInfo.d.h lines 14 to 17:
both `title` and `author` are plain `DiplomatStringView` values. -/
def EpubInfo_fields : List (String × CFieldType) :=
  [("title", CFieldType.stringView), ("author", CFieldType.stringView)]

/-- Fields of `struct EpubInfo_option` as declared in EpubInfo.d.h line 19:
a union holding an `EpubInfo` value `ok`, and a `bool is_ok` flag. -/
def EpubInfo_option_fields : List (String × CFieldType) :=
  [("ok", CFieldType.structField "EpubInfo"), ("is_ok", CFieldType.boolField)]

/-! ## Unicode whitespace and lexical counting -/

/-- Characters with the Unicode White_Space property, used as the word
splitter by the lexical counter. -/
def isUnicodeWhitespace (c : Char) : Bool :=
  (0x0009 ≤ c.toNat && c.toNat ≤ 0x000D) || c.toNat == 0x0020 ||
  c.toNat == 0x0085 || c.toNat == 0x00A0 || c.toNat == 0x1680 ||
  (0x2000 ≤ c.toNat && c.toNat ≤ 0x200A) ||
  c.toNat == 0x2028 || c.toNat == 0x2029 || c.toNat == 0x202F ||
  c.toNat == 0x205F || c.toNat == 0x3000

/-- Modelled from the spec: single left-to-right scan counting words, the
way the missing LexicalCounter component is described. The flag records
whether the scan is currently inside a run of non-whitespace characters. -/
def wordCountAux : Bool → List Char → Nat
  | _, [] => 0
  | inWord, c :: cs =>
    if isUnicodeWhitespace c then wordCountAux false cs
    else (if inWord then 0 else 1) + wordCountAux true cs

/-- Modelled from the spec: total word count of a text. -/
def wordCount (s : String) : Nat :=
  wordCountAux false s.data

/-- Modelled from the spec: character count of a text, the number of
Unicode scalar values. -/
def charCount (s : String) : Nat :=
  s.length

/-- One if the list starts with a non-whitespace character. -/
def firstIsWord : List Char → Nat
  | [] => 0
  | c :: _ => if isUnicodeWhitespace c then 0 else 1

/-- Number of positions where a whitespace character is immediately
followed by a non-whitespace character. -/
def pairStarts (l : List Char) : Nat :=
  ((l.zip l.tail).filter
    (fun p => isUnicodeWhitespace p.1 && !(isUnicodeWhitespace p.2))).length

/-- The number of maximal runs of non-whitespace characters, counted as
the number of run starts: a run starts at the first character when it is
non-whitespace, and after every whitespace-to-non-whitespace transition.
This is the specification-side reading of the word-count contract. -/
def maximalRunCount (l : List Char) : Nat :=
  firstIsWord l + pairStarts l

/-! ## Markup stripping -/

/-- Lower-case an ASCII letter, leaving other characters alone. -/
def asciiLower (c : Char) : Char :=
  if 'A' ≤ c && c ≤ 'Z' then Char.ofNat (c.toNat + 32) else c

/-- The element name of a tag body (the characters between the angle
brackets), with any leading slash removed and lower-cased. -/
def tagElemName (content : List Char) : List Char :=
  ((content.dropWhile (fun c => c == '/')).takeWhile
    (fun c => !(isUnicodeWhitespace c) && !(c == '/'))).map asciiLower

/-- Whether a tag body denotes a closing tag. -/
def isClosingTag (content : List Char) : Bool :=
  content.head? == some '/'

/-- Whether a tag body denotes a self-closing tag. -/
def isSelfClosingTag (content : List Char) : Bool :=
  content.getLast? == some '/'

/-- Whether an element name is one whose content is excluded entirely. -/
def isSkipElem (n : List Char) : Bool :=
  n == "script".data || n == "style".data

/-- Numeric value of a decimal digit character. -/
def decDigit (c : Char) : Option Nat :=
  if c.isDigit then some (c.toNat - 48) else none

/-- Numeric value of a hexadecimal digit character. -/
def hexDigit (c : Char) : Option Nat :=
  if c.isDigit then some (c.toNat - 48)
  else if 'a' ≤ c && c ≤ 'f' then some (c.toNat - 87)
  else if 'A' ≤ c && c ≤ 'F' then some (c.toNat - 55)
  else none

/-- Accumulate the value of a digit string in the given base. -/
def digitsValAux (digit : Char → Option Nat) (base : Nat) : List Char → Nat → Option Nat
  | [], acc => some acc
  | c :: cs, acc =>
    match digit c with
    | none => none
    | some d => digitsValAux digit base cs (acc * base + d)

/-- Value of a non-empty digit string in the given base. -/
def digitsVal (digit : Char → Option Nat) (base : Nat) (l : List Char) : Option Nat :=
  match l with
  | [] => none
  | _ => digitsValAux digit base l 0

/-- The character with the given code point, when it is a valid Unicode
scalar value. -/
def charOfCode (n : Nat) : Option Char :=
  if n.isValidChar then some (Char.ofNat n) else none

/-- Modelled from the spec: decode a character or entity reference (the
text between the ampersand and the semicolon) to the single scalar value
it represents. Named entities cover the XML predefined set plus nbsp;
numeric references are decimal or hexadecimal code points. -/
def decodeEntity (name : List Char) : Option Char :=
  let s : String := String.mk name
  if s == "amp" then some '&'
  else if s == "lt" then some '<'
  else if s == "gt" then some '>'
  else if s == "quot" then some (Char.ofNat 34)
  else if s == "apos" then some (Char.ofNat 39)
  else if s == "nbsp" then some (Char.ofNat 160)
  else
    match name with
    | '#' :: 'x' :: rest => Option.bind (digitsVal hexDigit 16 rest) charOfCode
    | '#' :: 'X' :: rest => Option.bind (digitsVal hexDigit 16 rest) charOfCode
    | '#' :: rest => Option.bind (digitsVal decDigit 10 rest) charOfCode
    | _ => none

/-- Tokens produced by the markup scanner: a text character, or a tag
boundary (the place a removed tag occupied). -/
inductive Tok where
  | chr (c : Char)
  | boundary
  deriving DecidableEq

/-- States of the markup scanner: plain text, inside a tag, inside an
entity reference, inside excluded script or style content, and inside a
tag while in excluded content. -/
inductive ScanSt where
  | text
  | tag (accRev : List Char)
  | ent (accRev : List Char)
  | skip (elem : List Char)
  | skipTag (elem : List Char) (accRev : List Char)

/-- Modelled from the spec: one step of the markup scanner. Tags are
replaced by a boundary token, entity references are decoded, and the
content of script and style elements is dropped entirely. Output tokens
are accumulated in reverse. -/
def scanStep : List Tok × ScanSt → Char → List Tok × ScanSt
  | (out, ScanSt.text), c =>
    if c == '<' then (out, ScanSt.tag [])
    else if c == '&' then (out, ScanSt.ent [])
    else (Tok.chr c :: out, ScanSt.text)
  | (out, ScanSt.tag acc), c =>
    if c == '>' then
      let content := acc.reverse
      if !(isClosingTag content) && isSkipElem (tagElemName content) &&
          !(isSelfClosingTag content) then
        (Tok.boundary :: out, ScanSt.skip (tagElemName content))
      else (Tok.boundary :: out, ScanSt.text)
    else (out, ScanSt.tag (c :: acc))
  | (out, ScanSt.ent acc), c =>
    if c == ';' then
      match decodeEntity acc.reverse with
      | some d => (Tok.chr d :: out, ScanSt.text)
      | none => (Tok.chr ';' :: (acc.map Tok.chr ++ (Tok.chr '&' :: out)), ScanSt.text)
    else (out, ScanSt.ent (c :: acc))
  | (out, ScanSt.skip elem), c =>
    if c == '<' then (out, ScanSt.skipTag elem []) else (out, ScanSt.skip elem)
  | (out, ScanSt.skipTag elem acc), c =>
    if c == '>' then
      let content := acc.reverse
      if isClosingTag content && (tagElemName content == elem) then
        (Tok.boundary :: out, ScanSt.text)
      else (out, ScanSt.skip elem)
    else (out, ScanSt.skipTag elem (c :: acc))

/-- Flush the scanner at end of input: an unterminated entity is emitted
literally, an unterminated tag is dropped. -/
def finishScan : List Tok × ScanSt → List Tok
  | (out, ScanSt.ent acc) => acc.map Tok.chr ++ (Tok.chr '&' :: out)
  | (out, _) => out

/-- Token stream of a content document, in document order. -/
def tokensOf (s : String) : List Tok :=
  (finishScan (s.data.foldl scanStep ([], ScanSt.text))).reverse

/-- Modelled from the spec: resolve tag boundaries. A maximal run of
whitespace characters and boundary tokens that contains at least one
boundary collapses to a single space; a pure-whitespace run is kept as
written. State: reversed output, reversed pending whitespace, and whether
the pending run contains a boundary. -/
def resolveStep : List Char × List Char × Bool → Tok → List Char × List Char × Bool
  | (out, pending, _), Tok.boundary => (out, pending, true)
  | (out, pending, sawB), Tok.chr c =>
    if isUnicodeWhitespace c then (out, c :: pending, sawB)
    else (c :: ((if sawB then [' '] else pending) ++ out), [], false)

/-- Characters of the token stream after boundary resolution. -/
def resolveTokens (ts : List Tok) : List Char :=
  (ts.foldl resolveStep ([], [], false)).1.reverse

/-- Remove leading and trailing whitespace. -/
def trimEnds (l : List Char) : List Char :=
  ((l.dropWhile isUnicodeWhitespace).reverse.dropWhile isUnicodeWhitespace).reverse

/-- Modelled from the spec: strip all markup from a content document,
decoding entity references, collapsing tag boundaries into a single
whitespace separator, excluding script and style content, and trimming
the ends of the resulting per-item text. -/
def stripMarkup (s : String) : String :=
  String.mk (trimEnds (resolveTokens (tokensOf s)))

/-! ## Data model of the pipeline -/

/-- Modelled from the spec: the decodability of the bytes of one archive
entry holding a content document: they decode as UTF-8, or only via the
Latin-1 fallback, or not at all. -/
inductive ContentData where
  | utf8 (raw : String)
  | latin1 (raw : String)
  | undecodable
  deriving DecidableEq

/-- Modelled from the spec: a manifest `<item>` as written in the package
document, each attribute possibly missing. -/
structure RawItem where
  id : Option String
  href : Option String
  media_type : Option String
  deriving DecidableEq

/-- Modelled from the spec: the package (OPF) document: manifest items,
spine itemref ids in document order, and the dc:title and dc:creator
elements in document order. -/
structure RawPackage where
  items : List RawItem
  itemrefs : List String
  titles : List String
  creators : List String
  deriving DecidableEq

/-- Modelled from the spec: the parsed META-INF/container.xml, whose
rootfile full-path attribute may be missing. -/
structure ContainerXml where
  rootfilePath : Option String
  deriving DecidableEq

/-- Modelled from the spec: one archive entry, as the stage that consumes
it sees it. -/
inductive Entry where
  | container (c : ContainerXml)
  | package (p : RawPackage)
  | content (d : ContentData)
  deriving DecidableEq

/-- Modelled from the spec: an opened zip archive, a finite map from
entry path to entry. -/
structure Archive where
  entries : List (String × Entry)
  deriving DecidableEq

/-- Look up an archive entry by path. -/
def lookupEntry (a : Archive) (p : String) : Option Entry :=
  Option.map (fun q => q.2) (a.entries.find? (fun q => q.1 == p))

/-- A resolved manifest entry: id, href and media type. -/
structure ManifestEntry where
  id : String
  href : String
  media_type : String
  deriving DecidableEq

/-- Modelled from the spec: the internal bibliographic metadata record,
each field an explicit optional value. -/
structure EpubInfo where
  title : Option String
  author : Option String
  deriving DecidableEq

/-- The error kinds of the pipeline. -/
inductive EpubError where
  | IOError
  | ArchiveCorrupt
  | MalformedContainer
  | MalformedPackage
  | EncodingError
  deriving DecidableEq

/-- Modelled from the spec: the possible fates of opening the input file
as a zip archive: the file is unreadable, the zip structure is invalid,
or an archive is obtained. -/
inductive EpubInput where
  | unreadableFile
  | corruptZip
  | zipArchive (a : Archive)

/-! ## Pipeline stages -/

/-- Modelled from the spec: ContainerReader.open. -/
def openArchive : EpubInput → Except EpubError Archive
  | EpubInput.unreadableFile => Except.error EpubError.IOError
  | EpubInput.corruptZip => Except.error EpubError.ArchiveCorrupt
  | EpubInput.zipArchive a => Except.ok a

/-- Modelled from the spec: ContainerReader.locate_package_path reads
META-INF/container.xml and extracts the rootfile full-path attribute. -/
def locate_package_path (a : Archive) : Except EpubError String :=
  match lookupEntry a "META-INF/container.xml" with
  | some (Entry.container c) =>
    match c.rootfilePath with
    | some p => Except.ok p
    | none => Except.error EpubError.MalformedContainer
  | _ => Except.error EpubError.MalformedContainer

/-- Modelled from the spec: resolve raw manifest items; an item lacking
id or href is a MalformedPackage failure. -/
def resolveItems : List RawItem → Except EpubError (List ManifestEntry)
  | [] => Except.ok []
  | r :: rs =>
    match r.id, r.href with
    | some i, some h =>
      match resolveItems rs with
      | Except.error e => Except.error e
      | Except.ok rest => Except.ok (⟨i, h, Option.getD r.media_type ""⟩ :: rest)
    | _, _ => Except.error EpubError.MalformedPackage

/-- Modelled from the spec: resolve spine itemrefs against the manifest;
an idref naming no manifest item is a MalformedPackage failure. All
itemrefs are kept, in document order. -/
def resolveSpine (m : List ManifestEntry) : List String → Except EpubError (List String)
  | [] => Except.ok []
  | r :: rs =>
    if m.any (fun x => x.id == r) then
      match resolveSpine m rs with
      | Except.error e => Except.error e
      | Except.ok rest => Except.ok (r :: rest)
    else Except.error EpubError.MalformedPackage

/-- Modelled from the spec: PackageParser.parse: read the package document
at the given path, resolve manifest and spine, and take the title from the
first dc:title and the author from the first dc:creator, each marked
absent when no such element exists. -/
def parsePackage (a : Archive) (p : String) :
    Except EpubError (List ManifestEntry × List String × EpubInfo) :=
  match lookupEntry a p with
  | some (Entry.package pkg) =>
    match resolveItems pkg.items with
    | Except.error e => Except.error e
    | Except.ok m =>
      match resolveSpine m pkg.itemrefs with
      | Except.error e => Except.error e
      | Except.ok s => Except.ok (m, s, ⟨pkg.titles.head?, pkg.creators.head?⟩)
  | _ => Except.error EpubError.MalformedPackage

/-- Whether a media type is in the XHTML/HTML family. -/
def isHtmlFamily (mt : String) : Bool :=
  mt == "application/xhtml+xml" || mt == "text/html"

/-- Modelled from the spec: the plain text one spine item contributes.
`none` means the item is skipped: the idref resolves to no manifest item,
the media type is not in the XHTML/HTML family, the archive entry is
missing or is not a content document, or its bytes are undecodable even
after the Latin-1 fallback. -/
def itemText (a : Archive) (m : List ManifestEntry) (idref : String) : Option String :=
  match m.find? (fun x => x.id == idref) with
  | none => none
  | some e =>
    if isHtmlFamily e.media_type then
      match lookupEntry a e.href with
      | some (Entry.content (ContentData.utf8 raw)) => some (stripMarkup raw)
      | some (Entry.content (ContentData.latin1 raw)) => some (stripMarkup raw)
      | _ => none
    else none

/-- Append one item text to the accumulated text, inserting a single
space separator between non-empty pieces. -/
def appendItem (acc t : String) : String :=
  if t = "" then acc else if acc = "" then t else acc ++ " " ++ t

/-- One step of ContentExtractor: a skipped item contributes nothing. -/
def extractStep (a : Archive) (m : List ManifestEntry) (acc : String) (idref : String) : String :=
  appendItem acc (Option.getD (itemText a m idref) "")

/-- Modelled from the spec: ContentExtractor.extract: the per-item plain
texts concatenated in spine order, separated by a single whitespace
boundary, skipped items omitted. -/
def extract (a : Archive) (m : List ManifestEntry) (spine : List String) : String :=
  spine.foldl (extractStep a m) ""

/-- Specification-side join: concatenation with a single space between
consecutive pieces. -/
def joinSp : List String → String
  | [] => ""
  | [t] => t
  | t :: u :: ts => t ++ " " ++ joinSp (u :: ts)

/-- Modelled from the spec: the fully processed document handle owned by
the facade: the cached counts, the metadata, and the extracted text. -/
structure Handle where
  word_count : Nat
  char_count : Nat
  info : EpubInfo
  text : String
  deriving DecidableEq

/-- Build the handle from the outputs of the fatal stages: run extraction
and cache both counts. -/
def buildHandle (a : Archive) (m : List ManifestEntry) (s : List String)
    (info : EpubInfo) : Handle :=
  ⟨wordCount (extract a m s), charCount (extract a m s), info, extract a m s⟩

/-- Modelled from the spec: the fatal stages of construction, run in
order: open the archive, locate the package document, parse it. -/
def pipelineFatal (i : EpubInput) :
    Except EpubError (Archive × List ManifestEntry × List String × EpubInfo) :=
  match openArchive i with
  | Except.error e => Except.error e
  | Except.ok a =>
    match locate_package_path a with
    | Except.error e => Except.error e
    | Except.ok p =>
      match parsePackage a p with
      | Except.error e => Except.error e
      | Except.ok (m, s, info) => Except.ok (a, m, s, info)

/-- Modelled from the spec: the boundary constructor: run the whole
pipeline eagerly; a fatal failure surfaces as a null handle (`none`). -/
def EpubExtractor_create (i : EpubInput) : Option Handle :=
  match pipelineFatal i with
  | Except.error _ => none
  | Except.ok (a, m, s, info) => some (buildHandle a m s info)

/-- Modelled from the spec: boundary accessor returning the cached word
count. -/
def EpubExtractor_get_total_word_count (h : Handle) : Nat :=
  h.word_count

/-- Modelled from the spec: boundary accessor returning the cached
character count. -/
def EpubExtractor_get_total_char_count (h : Handle) : Nat :=
  h.char_count

/-- The two boundary accessors, as observable calls. -/
inductive AccessorCall where
  | words
  | chars
  deriving DecidableEq

/-- Modelled from the spec: running one accessor call against the handle
state: the returned value together with the post-call state. -/
def runAccessor (h : Handle) : AccessorCall → Nat × Handle
  | AccessorCall.words => (EpubExtractor_get_total_word_count h, h)
  | AccessorCall.chars => (EpubExtractor_get_total_char_count h, h)

/-- Run a sequence of accessor calls, threading the handle state. -/
def runAccessors (h : Handle) : List AccessorCall → List Nat × Handle
  | [] => ([], h)
  | c :: cs =>
    let r := runAccessor h c
    let rest := runAccessors r.2 cs
    (r.1 :: rest.1, rest.2)

/-- The value an accessor call should return on a given handle. -/
def callValue (h : Handle) : AccessorCall → Nat
  | AccessorCall.words => h.word_count
  | AccessorCall.chars => h.char_count

/-! ## Concrete fixtures -/

/-- A minimal single-chapter content document. -/
def helloContent : String :=
  "<html><body><p>Hello world.</p></body></html>"

/-- Package document of the single-chapter fixture. -/
def helloPackage : RawPackage :=
  ⟨[⟨some "c1", some "ch1.xhtml", some "application/xhtml+xml"⟩],
   ["c1"], ["Hello Book"], []⟩

/-- Archive of the single-chapter fixture. -/
def helloArchive : Archive :=
  ⟨[("META-INF/container.xml", Entry.container ⟨some "content.opf"⟩),
    ("content.opf", Entry.package helloPackage),
    ("ch1.xhtml", Entry.content (ContentData.utf8 helloContent))]⟩

/-- The single-chapter fixture as a pipeline input. -/
def helloInput : EpubInput :=
  EpubInput.zipArchive helloArchive

/-- Package document of the two-chapter fixture. -/
def twoDocPackage : RawPackage :=
  ⟨[⟨some "c1", some "ch1.xhtml", some "application/xhtml+xml"⟩,
    ⟨some "c2", some "ch2.xhtml", some "application/xhtml+xml"⟩],
   ["c1", "c2"], [], []⟩

/-- Archive of the two-chapter fixture. -/
def twoDocArchive : Archive :=
  ⟨[("META-INF/container.xml", Entry.container ⟨some "content.opf"⟩),
    ("content.opf", Entry.package twoDocPackage),
    ("ch1.xhtml", Entry.content (ContentData.utf8 "<p>Hello</p>")),
    ("ch2.xhtml", Entry.content (ContentData.utf8 "<p>world.</p>"))]⟩

/-- The two-chapter fixture as a pipeline input. -/
def twoDocInput : EpubInput :=
  EpubInput.zipArchive twoDocArchive

/-- Package whose spine references an id absent from the manifest. -/
def danglingSpinePackage : RawPackage :=
  ⟨[⟨some "c1", some "ch1.xhtml", some "application/xhtml+xml"⟩],
   ["c1", "ghost"], [], []⟩

/-- Archive whose package has a dangling spine itemref. -/
def danglingSpineArchive : Archive :=
  ⟨[("META-INF/container.xml", Entry.container ⟨some "content.opf"⟩),
    ("content.opf", Entry.package danglingSpinePackage),
    ("ch1.xhtml", Entry.content (ContentData.utf8 "<p>Hello</p>"))]⟩

/-- The dangling-spine fixture as a pipeline input. -/
def danglingSpineInput : EpubInput :=
  EpubInput.zipArchive danglingSpineArchive

/-- Archive with a hello chapter, a whitespace-only chapter in the spine. -/
def helloPlusEmptyArchive : Archive :=
  ⟨[("META-INF/container.xml", Entry.container ⟨some "content.opf"⟩),
    ("content.opf", Entry.package
      ⟨[⟨some "c1", some "ch1.xhtml", some "application/xhtml+xml"⟩,
        ⟨some "c2", some "ch2.xhtml", some "application/xhtml+xml"⟩],
       ["c1", "c2"], [], []⟩),
    ("ch1.xhtml", Entry.content (ContentData.utf8 helloContent)),
    ("ch2.xhtml", Entry.content (ContentData.utf8 "<p>   </p>"))]⟩

/-- The whitespace-chapter fixture as a pipeline input. -/
def helloPlusEmptyInput : EpubInput :=
  EpubInput.zipArchive helloPlusEmptyArchive

/-- Manifest whose second entry points at a missing archive entry. -/
def skipManifest : List ManifestEntry :=
  [⟨"c1", "ch1.xhtml", "application/xhtml+xml"⟩,
   ⟨"c2", "ch2.xhtml", "application/xhtml+xml"⟩]

/-- Archive holding only the first chapter of `skipManifest`. -/
def skipArchive : Archive :=
  ⟨[("ch1.xhtml", Entry.content (ContentData.utf8 "<p>Hello</p>"))]⟩

/-- Resolved manifest of the two-chapter fixture. -/
def twoDocManifest : List ManifestEntry :=
  [⟨"c1", "ch1.xhtml", "application/xhtml+xml"⟩,
   ⟨"c2", "ch2.xhtml", "application/xhtml+xml"⟩]

/-- Package lacking any dc:title element. -/
def noTitlePackage : RawPackage :=
  ⟨[⟨some "c1", some "ch1.xhtml", some "application/xhtml+xml"⟩],
   ["c1"], [], ["An Author"]⟩

/-- Archive whose package lacks any dc:title element. -/
def noTitleArchive : Archive :=
  ⟨[("content.opf", Entry.package noTitlePackage),
    ("ch1.xhtml", Entry.content (ContentData.utf8 "<p>Hello</p>"))]⟩

/-! ## Counting lemmas -/

/-- Unfolding of `pairStarts` over a two-element head. -/
theorem pairStarts_cons (c d : Char) (ds : List Char) :
    pairStarts (c :: d :: ds) =
      (if (isUnicodeWhitespace c && !(isUnicodeWhitespace d)) = true then 1 else 0) +
        pairStarts (d :: ds) := by
  simp only [pairStarts, List.tail_cons, List.zip_cons_cons, List.filter_cons]
  split <;> simp [Nat.add_comm]

/-- A whitespace head contributes the run start of the tail. -/
theorem pairStarts_ws_cons (c : Char) (cs : List Char)
    (hc : isUnicodeWhitespace c = true) :
    pairStarts (c :: cs) = firstIsWord cs + pairStarts cs := by
  cases cs with
  | nil => rfl
  | cons d ds =>
    rw [pairStarts_cons]
    by_cases hd : isUnicodeWhitespace d = true <;> simp [firstIsWord, hc, hd]

/-- A non-whitespace head starts no later run. -/
theorem pairStarts_nonws_cons (c : Char) (cs : List Char)
    (hc : isUnicodeWhitespace c = false) :
    pairStarts (c :: cs) = pairStarts cs := by
  cases cs with
  | nil => rfl
  | cons d ds => rw [pairStarts_cons]; simp [hc]

/-- The scanning word counter agrees with the maximal-run count: started
inside a word it counts the runs that begin after a whitespace character,
started outside it counts every maximal run. -/
theorem wordCountAux_spec (l : List Char) :
    wordCountAux true l = pairStarts l ∧ wordCountAux false l = maximalRunCount l := by
  induction l with
  | nil => exact ⟨rfl, rfl⟩
  | cons c cs ih =>
    obtain ⟨ih1, ih2⟩ := ih
    by_cases hc : isUnicodeWhitespace c = true
    · constructor
      · simp only [wordCountAux, hc, if_true, ih2, maximalRunCount,
          pairStarts_ws_cons c cs hc]
      · simp only [wordCountAux, hc, if_true, ih2]
        simp [maximalRunCount, firstIsWord, hc, pairStarts_ws_cons c cs hc]
    · rw [Bool.not_eq_true] at hc
      constructor
      · simp [wordCountAux, hc, ih1, pairStarts_nonws_cons c cs hc]
      · simp [wordCountAux, hc, ih1, maximalRunCount, firstIsWord,
          pairStarts_nonws_cons c cs hc]

/-- The word count of a text is its number of maximal non-whitespace runs. -/
theorem wordCount_eq_maximalRunCount (s : String) :
    wordCount s = maximalRunCount s.data :=
  (wordCountAux_spec s.data).2

/-! ## Concatenation lemmas -/

/-- The character data of a concatenation. -/
theorem str_append_data (a b : String) : (a ++ b).data = a.data ++ b.data :=
  rfl

/-- String concatenation is associative. -/
theorem str_append_assoc (a b c : String) : a ++ b ++ c = a ++ (b ++ c) := by
  apply String.ext
  simp only [str_append_data, List.append_assoc]

/-- A concatenation whose left part is non-empty is non-empty. -/
theorem str_append_ne_empty_left (a b : String) (h : ¬ a = "") : ¬ a ++ b = "" := by
  intro he
  apply h
  apply String.ext
  have h2 : (a ++ b).data = [] := by rw [he]
  rw [str_append_data] at h2
  have h3 := List.append_eq_nil.mp h2
  simpa using h3.1

/-- Appending an empty piece changes nothing. -/
theorem appendItem_empty_right (acc : String) : appendItem acc "" = acc := by
  simp [appendItem]

/-- Appending to the empty accumulator yields the piece. -/
theorem appendItem_empty_left (t : String) : appendItem "" t = t := by
  by_cases h : t = "" <;> simp [appendItem, h]

/-- Appending between two non-empty strings inserts a single space. -/
theorem appendItem_of_ne (acc t : String) (ha : ¬ acc = "") (ht : ¬ t = "") :
    appendItem acc t = acc ++ " " ++ t := by
  unfold appendItem
  rw [if_neg ht, if_neg ha]

/-- Appending a non-empty piece yields a non-empty accumulator. -/
theorem appendItem_ne_empty (acc t : String) (h : ¬ t = "") : ¬ appendItem acc t = "" := by
  unfold appendItem
  rw [if_neg h]
  by_cases ha : acc = ""
  · rw [if_pos ha]; exact h
  · rw [if_neg ha]
    exact str_append_ne_empty_left (acc ++ " ") t (str_append_ne_empty_left acc " " ha)

/-- A space-joined list headed by a non-empty string is non-empty. -/
theorem joinSp_ne_empty (t : String) (ts : List String) (h : ¬ t = "") :
    ¬ joinSp (t :: ts) = "" := by
  cases ts with
  | nil => exact h
  | cons u us =>
    exact str_append_ne_empty_left (t ++ " ") (joinSp (u :: us))
      (str_append_ne_empty_left t " " h)

/-- Merging one piece into the accumulator commutes with joining. -/
theorem appendItem_joinSp (acc t : String) (ts : List String)
    (ht : ¬ t = "") (hts : ∀ u ∈ ts, ¬ u = "") :
    appendItem (appendItem acc t) (joinSp ts) = appendItem acc (joinSp (t :: ts)) := by
  cases ts with
  | nil =>
    show appendItem (appendItem acc t) (joinSp []) = appendItem acc (joinSp [t])
    rw [show joinSp [] = "" from rfl, appendItem_empty_right,
      show joinSp [t] = t from rfl]
  | cons u us =>
    have hJ : ¬ joinSp (u :: us) = "" := joinSp_ne_empty u us (hts u (List.mem_cons_self u us))
    have hX : ¬ appendItem acc t = "" := appendItem_ne_empty acc t ht
    have hTJ : ¬ t ++ " " ++ joinSp (u :: us) = "" :=
      str_append_ne_empty_left (t ++ " ") (joinSp (u :: us))
        (str_append_ne_empty_left t " " ht)
    have hjcons : joinSp (t :: u :: us) = t ++ " " ++ joinSp (u :: us) := rfl
    rw [hjcons, appendItem_of_ne (appendItem acc t) (joinSp (u :: us)) hX hJ]
    by_cases ha : acc = ""
    · rw [ha]; simp [appendItem_empty_left]
    · rw [appendItem_of_ne acc t ha ht,
        appendItem_of_ne acc (t ++ " " ++ joinSp (u :: us)) ha hTJ]
      simp [str_append_assoc]

/-- Folding non-empty pieces into the accumulator joins them with single
spaces. -/
theorem foldl_appendItem (l : List String) :
    ∀ acc : String, (∀ t ∈ l, ¬ t = "") →
      l.foldl appendItem acc = appendItem acc (joinSp l) := by
  induction l with
  | nil => intro acc _; rw [show joinSp [] = "" from rfl, appendItem_empty_right]; rfl
  | cons t ts ih =>
    intro acc hl
    have ht : ¬ t = "" := hl t (List.mem_cons_self t ts)
    have hts : ∀ u ∈ ts, ¬ u = "" := fun u hu => hl u (List.mem_cons_of_mem t hu)
    calc (t :: ts).foldl appendItem acc
        = ts.foldl appendItem (appendItem acc t) := rfl
      _ = appendItem (appendItem acc t) (joinSp ts) := ih (appendItem acc t) hts
      _ = appendItem acc (joinSp (t :: ts)) := appendItem_joinSp acc t ts ht hts

/-! ## Error provenance lemmas -/

/-- Manifest resolution fails only with MalformedPackage. -/
theorem resolveItems_error (l : List RawItem) :
    ∀ e : EpubError, resolveItems l = Except.error e → e = EpubError.MalformedPackage := by
  induction l with
  | nil => intro e h; simp [resolveItems] at h
  | cons r rs ih =>
    intro e h
    unfold resolveItems at h
    split at h
    · split at h
      · next e2 heq => injection h with h2; rw [← h2]; exact ih e2 heq
      · simp at h
    · injection h with h2; exact h2.symm

/-- Spine resolution fails only with MalformedPackage. -/
theorem resolveSpine_error (m : List ManifestEntry) (l : List String) :
    ∀ e : EpubError, resolveSpine m l = Except.error e → e = EpubError.MalformedPackage := by
  induction l with
  | nil => intro e h; simp [resolveSpine] at h
  | cons r rs ih =>
    intro e h
    unfold resolveSpine at h
    split at h
    · split at h
      · next e2 heq => injection h with h2; rw [← h2]; exact ih e2 heq
      · simp at h
    · injection h with h2; exact h2.symm

/-- Package parsing fails only with MalformedPackage. -/
theorem parsePackage_error (a : Archive) (p : String) (e : EpubError)
    (h : parsePackage a p = Except.error e) : e = EpubError.MalformedPackage := by
  unfold parsePackage at h
  split at h
  · next pkg heq =>
    split at h
    · next e2 heq2 => injection h with h2; rw [← h2]; exact resolveItems_error pkg.items e2 heq2
    · next m heq2 =>
      split at h
      · next e2 heq3 =>
        injection h with h2; rw [← h2]; exact resolveSpine_error m pkg.itemrefs e2 heq3
      · simp at h
  · injection h with h2; exact h2.symm

/-- Locating the package path fails only with MalformedContainer. -/
theorem locate_package_path_error (a : Archive) (e : EpubError)
    (h : locate_package_path a = Except.error e) : e = EpubError.MalformedContainer := by
  unfold locate_package_path at h
  split at h
  · split at h
    · simp at h
    · injection h with h2; exact h2.symm
  · injection h with h2; exact h2.symm

/-- Opening the archive fails only with IOError or ArchiveCorrupt. -/
theorem openArchive_error (i : EpubInput) (e : EpubError)
    (h : openArchive i = Except.error e) :
    e = EpubError.IOError ∨ e = EpubError.ArchiveCorrupt := by
  cases i with
  | unreadableFile => injection h with h2; exact Or.inl h2.symm
  | corruptZip => injection h with h2; exact Or.inr h2.symm
  | zipArchive a => simp [openArchive] at h

/-! ## Claim theorems -/

/-- Claim C1, counterexample: the declared boundary constructor
`EpubExtractor_create` takes no parameters at all, so in particular it
does not take a file path string as its parameter. -/
theorem C1_counterexample :
    EpubExtractor_create_decl.params = [] ∧
    ¬ ∃ p : CParam, p ∈ EpubExtractor_create_decl.params ∧
      p.ptype = CType.charConstPtr := by
  refine ⟨rfl, ?_⟩
  rintro ⟨p, hp, -⟩
  simp [EpubExtractor_create_decl] at hp

/-- Claim C1, amended: the boundary constructor is declared with an empty
parameter list and returns a nullable handle pointer; the modelled
construction is total, yielding either a handle or null on every input. -/
theorem C1_create_total :
    EpubExtractor_create_decl.params = [] ∧
    EpubExtractor_create_decl.ret = CType.ptrTo "EpubExtractor" ∧
    ∀ i : EpubInput, EpubExtractor_create i = none ∨
      ∃ hdl : Handle, EpubExtractor_create i = some hdl := by
  refine ⟨rfl, rfl, fun i => ?_⟩
  cases hc : EpubExtractor_create i with
  | none => exact Or.inl rfl
  | some hdl => exact Or.inr ⟨hdl, rfl⟩

/-- Claim C2, counterexample: in the boundary record `EpubInfo` the
`title` field (and likewise `author`) is a plain string view, not an
explicit optional value. -/
theorem C2_counterexample :
    ("title", CFieldType.stringView) ∈ EpubInfo_fields ∧
    ("author", CFieldType.stringView) ∈ EpubInfo_fields ∧
    isOptionWrapped CFieldType.stringView = false := by
  exact ⟨by simp [EpubInfo_fields], by simp [EpubInfo_fields], rfl⟩

/-- Claim C2, amended: the modelled parser represents title and author as
explicit optional values, taking them from the first dc:title and
dc:creator elements and marking them absent otherwise; but in the
declared boundary record both fields are plain string views, absence
being expressible only for the record as a whole. -/
theorem C2_metadata_optional (a : Archive) (p : String) (pkg : RawPackage)
    (m : List ManifestEntry) (s : List String) (info : EpubInfo)
    (hp : lookupEntry a p = some (Entry.package pkg))
    (hok : parsePackage a p = Except.ok (m, s, info)) :
    info.title = pkg.titles.head? ∧ info.author = pkg.creators.head? ∧
    (∀ f ∈ EpubInfo_fields, f.2 = CFieldType.stringView) := by
  have hinfo : info = ⟨pkg.titles.head?, pkg.creators.head?⟩ := by
    simp only [parsePackage, hp] at hok
    split at hok
    · simp at hok
    · split at hok
      · simp at hok
      · simp only [Except.ok.injEq, Prod.mk.injEq] at hok
        exact hok.2.2.symm
  subst hinfo
  refine ⟨rfl, rfl, ?_⟩
  intro f hf
  simp only [EpubInfo_fields, List.mem_cons, List.mem_singleton] at hf
  rcases hf with h | h | h
  · rw [h]
  · rw [h]
  · simp at h

/-- Claim C2, witness: an OPF with no dc:title element parses to a record
whose title is marked absent (and whose author is present). -/
theorem C2_witness :
    (⟨none, some "An Author"⟩ : EpubInfo).title = noTitlePackage.titles.head? ∧
    (⟨none, some "An Author"⟩ : EpubInfo).author = noTitlePackage.creators.head? ∧
    (∀ f ∈ EpubInfo_fields, f.2 = CFieldType.stringView) :=
  C2_metadata_optional noTitleArchive "content.opf" noTitlePackage
    [⟨"c1", "ch1.xhtml", "application/xhtml+xml"⟩] ["c1"]
    ⟨none, some "An Author"⟩ rfl rfl

/-- Claim C10: at the boundary, both fields of `EpubInfo` are plain
pointer-and-length string views, and absence is expressible only for the
record as a whole through the `is_ok` flag of `EpubInfo_option`; hence
any per-field encoding that is faithful on present values conflates the
absent field with some present value, and with the empty view in
particular when absent fields are encoded as empty views. -/
theorem C10_record_level_absence (e : Option String → String)
    (hfaithful : ∀ s, e (some s) = s) :
    (∀ f ∈ EpubInfo_fields, f.2 = CFieldType.stringView) ∧
    ("is_ok", CFieldType.boolField) ∈ EpubInfo_option_fields ∧
    (∃ s : String, e none = e (some s)) ∧
    (e none = "" → e none = e (some "")) := by
  refine ⟨?_, ?_, ⟨e none, (hfaithful (e none)).symm⟩, fun h0 => ?_⟩
  · intro f hf
    simp only [EpubInfo_fields, List.mem_cons, List.mem_singleton] at hf
    rcases hf with h | h | h
    · rw [h]
    · rw [h]
    · simp at h
  · simp [EpubInfo_option_fields]
  · rw [hfaithful "", h0]

/-- Claim C10, witness: the empty-view encoding of optional metadata
fields is faithful on present values and makes the absent field
indistinguishable from the present empty string. -/
theorem C10_witness :
    (∀ f ∈ EpubInfo_fields, f.2 = CFieldType.stringView) ∧
    ("is_ok", CFieldType.boolField) ∈ EpubInfo_option_fields ∧
    (∃ s : String,
      (fun o : Option String => Option.getD o "") none =
        (fun o : Option String => Option.getD o "") (some s)) ∧
    ((fun o : Option String => Option.getD o "") none = "" →
      (fun o : Option String => Option.getD o "") none =
        (fun o : Option String => Option.getD o "") (some "")) :=
  C10_record_level_absence (fun o => Option.getD o "") (fun _ => rfl)

/-- Claim C3: whenever the fatal stages of construction fail, the error
kind is one of IOError, ArchiveCorrupt, MalformedContainer or
MalformedPackage, and the boundary constructor returns a null handle; the
model is a pure function, so the result is deterministic and no partial
state is observable. -/
theorem C3_fatal_error_null (i : EpubInput) (e : EpubError)
    (h : pipelineFatal i = Except.error e) :
    (e = EpubError.IOError ∨ e = EpubError.ArchiveCorrupt ∨
     e = EpubError.MalformedContainer ∨ e = EpubError.MalformedPackage) ∧
    EpubExtractor_create i = none := by
  constructor
  · unfold pipelineFatal at h
    split at h
    · next e2 heq =>
      injection h with h2
      rw [← h2]
      rcases openArchive_error i e2 heq with h3 | h3
      · exact Or.inl h3
      · exact Or.inr (Or.inl h3)
    · next a heq =>
      split at h
      · next e2 heq2 =>
        injection h with h2
        rw [← h2]
        exact Or.inr (Or.inr (Or.inl (locate_package_path_error a e2 heq2)))
      · next p heq2 =>
        split at h
        · next e2 heq3 =>
          injection h with h2
          rw [← h2]
          exact Or.inr (Or.inr (Or.inr (parsePackage_error a p e2 heq3)))
        · simp at h
  · unfold EpubExtractor_create
    rw [h]

/-- Claim C3, witness: a spine itemref naming an id absent from the
manifest fails the fatal stages with MalformedPackage, and the
constructor returns null on that input. -/
theorem C3_witness :
    ((EpubError.MalformedPackage = EpubError.IOError ∨
      EpubError.MalformedPackage = EpubError.ArchiveCorrupt ∨
      EpubError.MalformedPackage = EpubError.MalformedContainer ∨
      EpubError.MalformedPackage = EpubError.MalformedPackage) ∧
     EpubExtractor_create danglingSpineInput = none) :=
  C3_fatal_error_null danglingSpineInput EpubError.MalformedPackage rfl

/-- Claim C4: the boundary accessors are pure reads of the cached counts:
any sequence of accessor calls leaves the handle state unchanged and
returns, for each call, exactly the cached count, identical on every
repetition and in any order. -/
theorem C4_accessors_pure (h : Handle) (cs : List AccessorCall) :
    runAccessors h cs = (cs.map (callValue h), h) := by
  induction cs with
  | nil => rfl
  | cons c cs2 ih =>
    cases c <;> simp [runAccessors, runAccessor, callValue,
      EpubExtractor_get_total_word_count, EpubExtractor_get_total_char_count, ih]

/-- Claim C5: the word count of any text is the number of maximal runs of
non-whitespace characters under Unicode whitespace classification; a run
consisting solely of punctuation counts as one word; and the fixture EPUB
whose single spine document body is a paragraph reading Hello world.
yields a total word count of 2. -/
theorem C5_word_count_spec :
    (∀ s : String, wordCount s = maximalRunCount s.data) ∧
    wordCount "..." = 1 ∧
    Option.map Handle.word_count (EpubExtractor_create helloInput) = some 2 :=
  ⟨wordCount_eq_maximalRunCount, rfl, rfl⟩

/-- Claim C6: the character count of any extracted text is the number of
Unicode scalar values in it; entity references are resolved to their
single represented scalar value before counting; a whitespace-only or
markup-only content document strips to the empty text and so contributes
0 to both counts, as the two-chapter fixture with a blank second chapter
shows: its totals equal those of the single-chapter text. -/
theorem C6_char_count_spec :
    (∀ s : String, charCount s = s.data.length) ∧
    stripMarkup "a&amp;b" = "a&b" ∧
    stripMarkup "&#65;" = "A" ∧
    stripMarkup "<p>   </p>" = "" ∧
    Option.map Handle.word_count (EpubExtractor_create helloPlusEmptyInput) = some 2 ∧
    Option.map Handle.char_count (EpubExtractor_create helloPlusEmptyInput) = some 12 :=
  ⟨fun _ => rfl, rfl, rfl, rfl, rfl, rfl⟩

/-- A skipped spine item leaves the extraction accumulator unchanged. -/
theorem extractStep_none (a : Archive) (m : List ManifestEntry) (idref : String)
    (h : itemText a m idref = none) (acc : String) :
    extractStep a m acc idref = acc := by
  unfold extractStep
  rw [h]
  exact appendItem_empty_right acc

/-- Claim C7: when every spine item contributes a non-empty stripped
plain text, the extracted text is exactly the per-item texts joined in
spine order with a single space boundary between consecutive items. -/
theorem C7_spine_order_concat (a : Archive) (m : List ManifestEntry) (spine : List String)
    (h : ∀ r ∈ spine, ¬ Option.getD (itemText a m r) "" = "") :
    extract a m spine =
      joinSp (spine.map (fun r => Option.getD (itemText a m r) "")) := by
  have h1 : extract a m spine
      = (spine.map (fun r => Option.getD (itemText a m r) "")).foldl appendItem "" := by
    rw [List.foldl_map]
    rfl
  have hne : ∀ t ∈ spine.map (fun r => Option.getD (itemText a m r) ""), ¬ t = "" := by
    intro t ht
    rcases List.mem_map.mp ht with ⟨r, hr, rfl⟩
    exact h r hr
  rw [h1, foldl_appendItem _ "" hne, appendItem_empty_left]

/-- Claim C7, witness: the two-chapter fixture with texts Hello and
world. concatenates in spine order with a single separating space. -/
theorem C7_witness :
    extract twoDocArchive twoDocManifest ["c1", "c2"] =
      joinSp (["c1", "c2"].map
        (fun r => Option.getD (itemText twoDocArchive twoDocManifest r) "")) :=
  C7_spine_order_concat twoDocArchive twoDocManifest ["c1", "c2"] (by decide)

/-- Claim C8: a spine item whose manifest entry points at a missing
archive entry, a non-HTML-family media type, or undecodable bytes is
skipped: it contributes nothing, extraction over the spine equals
extraction with that item removed, both counts omit only its
contribution, and construction never fails once the fatal stages have
succeeded. -/
theorem C8_skip_item (a : Archive) (m : List ManifestEntry) (pre post : List String)
    (idref : String) (e : ManifestEntry)
    (hfind : m.find? (fun x => x.id == idref) = some e)
    (hskip : lookupEntry a e.href = none ∨ isHtmlFamily e.media_type = false ∨
      lookupEntry a e.href = some (Entry.content ContentData.undecodable)) :
    itemText a m idref = none ∧
    extract a m (pre ++ idref :: post) = extract a m (pre ++ post) ∧
    wordCount (extract a m (pre ++ idref :: post)) =
      wordCount (extract a m (pre ++ post)) ∧
    charCount (extract a m (pre ++ idref :: post)) =
      charCount (extract a m (pre ++ post)) ∧
    (∀ (i : EpubInput) a2 m2 s2 info2,
      pipelineFatal i = Except.ok (a2, m2, s2, info2) →
      EpubExtractor_create i = some (buildHandle a2 m2 s2 info2)) := by
  have hnone : itemText a m idref = none := by
    simp only [itemText, hfind]
    rcases hskip with h | h | h
    · rw [h]
      split <;> rfl
    · rw [h]
      simp
    · rw [h]
      split <;> rfl
  have hext : extract a m (pre ++ idref :: post) = extract a m (pre ++ post) := by
    unfold extract
    rw [List.foldl_append, List.foldl_append, List.foldl_cons,
      extractStep_none a m idref hnone]
  exact ⟨hnone, hext, congrArg wordCount hext, congrArg charCount hext,
    fun i a2 m2 s2 info2 hp => by unfold EpubExtractor_create; rw [hp]⟩

/-- Claim C8, witness: a spine item whose archive entry is missing is
skipped and the remaining chapter alone determines the counts. -/
theorem C8_witness :
    itemText skipArchive skipManifest "c2" = none ∧
    extract skipArchive skipManifest (["c1"] ++ "c2" :: []) =
      extract skipArchive skipManifest (["c1"] ++ []) ∧
    wordCount (extract skipArchive skipManifest (["c1"] ++ "c2" :: [])) =
      wordCount (extract skipArchive skipManifest (["c1"] ++ [])) ∧
    charCount (extract skipArchive skipManifest (["c1"] ++ "c2" :: [])) =
      charCount (extract skipArchive skipManifest (["c1"] ++ [])) ∧
    (∀ (i : EpubInput) a2 m2 s2 info2,
      pipelineFatal i = Except.ok (a2, m2, s2, info2) →
      EpubExtractor_create i = some (buildHandle a2 m2 s2 info2)) :=
  C8_skip_item skipArchive skipManifest ["c1"] [] "c2"
    ⟨"c2", "ch2.xhtml", "application/xhtml+xml"⟩ rfl (Or.inl rfl)

/-- Claim C9: whenever the fatal stages succeed (a valid EPUB), the
constructor returns a non-null handle, both boundary accessors return
non-negative natural counts, and the declared C return type of each
accessor is the unsigned size_t. -/
theorem C9_valid_nonnull (i : EpubInput)
    (x : Archive × List ManifestEntry × List String × EpubInfo)
    (h : pipelineFatal i = Except.ok x) :
    (∃ hdl : Handle, EpubExtractor_create i = some hdl ∧
      0 ≤ EpubExtractor_get_total_word_count hdl ∧
      0 ≤ EpubExtractor_get_total_char_count hdl) ∧
    EpubExtractor_get_total_word_count_decl.ret = CType.size_t ∧
    EpubExtractor_get_total_char_count_decl.ret = CType.size_t := by
  obtain ⟨a, m, s, info⟩ := x
  refine ⟨⟨buildHandle a m s info, ?_, Nat.zero_le _, Nat.zero_le _⟩, rfl, rfl⟩
  unfold EpubExtractor_create
  rw [h]

/-- Claim C9, witness: the valid single-chapter fixture yields a non-null
handle with non-negative counts. -/
theorem C9_witness :
    (∃ hdl : Handle, EpubExtractor_create helloInput = some hdl ∧
      0 ≤ EpubExtractor_get_total_word_count hdl ∧
      0 ≤ EpubExtractor_get_total_char_count hdl) ∧
    EpubExtractor_get_total_word_count_decl.ret = CType.size_t ∧
    EpubExtractor_get_total_char_count_decl.ret = CType.size_t :=
  C9_valid_nonnull helloInput
    (helloArchive, [⟨"c1", "ch1.xhtml", "application/xhtml+xml"⟩], ["c1"],
      ⟨some "Hello Book", none⟩) rfl

end Lexepub
